import Mathlib

/-!
Verification of the procure-lens multi-tenant document pipeline
(src/pipeline.py, src/db/cosmos_db.py, src/document_processing/pdf_parser.py,
src/document_processing/text_splitter.py) against its specification.

The Python code is shallowly embedded: Python dicts with string keys and
string values become association lists, text becomes a list of characters,
stateful objects become explicit state records, exceptions become
Except-valued results, and external collaborators (the PDF text extractor,
the Cosmos index creation call) become explicit oracle parameters whose
outcome the code branches on exactly as the source does.
-/

namespace ProcureLens

/-- Text is modelled as a list of characters, so a chunk's Python length
(len over str) is List.length. -/
abbrev Chars := List Char

/-- A Python dict with string keys and string values, modelled as an
association list in insertion order. Assigning an existing key overwrites
its value in place; assigning a fresh key appends it, exactly as a Python
dict preserves insertion order. -/
abbrev Dict := List (String × String)

/-- Assignment d[k] = v of a Python dict. -/
def dictSet (d : Dict) (k v : String) : Dict :=
  if d.any (fun p => p.1 = k) then
    d.map (fun p => if p.1 = k then (k, v) else p)
  else d ++ [(k, v)]

/-- Python dict.update(other): each key of other is assigned in order, so a
key present in both ends with the value from other. -/
def dictUpdate (d other : Dict) : Dict :=
  other.foldl (fun acc p => dictSet acc p.1 p.2) d

/-- Lookup d.get(k) of a Python dict. -/
def dictGet (d : Dict) (k : String) : Option String :=
  (d.find? (fun p => p.1 = k)).map (fun p => p.2)

/-- Membership test (k in d) of a Python dict. -/
def dictContains (d : Dict) (k : String) : Bool :=
  d.any (fun p => p.1 = k)

/-! ## Tenant filter construction in DocumentPipeline.search_documents
(src/pipeline.py lines 177-180):
base_filter = dict with the single entry tenant_id -> tenant_id argument;
if filter_criteria is truthy (not None and not empty) the caller's entries
are merged in with dict.update, whose values win on key collision. -/

/-- Lines 177-180 of src/pipeline.py: the filter mapping search_documents
builds before querying. Python `if filter_criteria:` is false both for None
and for an empty dict. -/
def build_search_filter (tenant_id : String) (filter_criteria : Option Dict) : Dict :=
  let base_filter : Dict := [(("tenant_id"), tenant_id)]
  match filter_criteria with
  | some fc => if fc ≠ [] then dictUpdate base_filter fc else base_filter
  | none => base_filter

/-! ## VectorStore (src/db/cosmos_db.py) -/

/-- A stored document: page_content plus a metadata dict, the shape of a
langchain Document as the pipeline passes it to the store. -/
structure StoredDocument where
  page_content : Chars
  metadata : Dict
deriving DecidableEq

/-- Outcome of the external create_index call on the underlying
AzureCosmosDBVectorSearch collection: it either returns or raises with a
message. -/
inductive CreateIndexOutcome where
  | success
  | failure (msg : String)
deriving DecidableEq

/-- The mutable state of a VectorStore instance: the _index_created flag,
the batch configuration, and the documents held by the underlying
collection. -/
structure VectorStoreState where
  index_created : Bool
  batch_size : Nat
  max_concurrency : Nat
  stored : List StoredDocument
deriving DecidableEq

/-- Python str.lower() over the characters of a message. -/
def lowerChars (s : String) : Chars :=
  s.toList.map Char.toLower

/-- The error classification on line 94 of src/db/cosmos_db.py:
"already exists" in str(e).lower(). -/
def mentionsAlreadyExists (msg : String) : Bool :=
  decide (List.IsInfix (lowerChars ("already exists")) (lowerChars msg))

/-- VectorStore.ensure_index_exists (src/db/cosmos_db.py lines 77-99).
The returned Bool records whether the underlying create_index call was
invoked at all. When _index_created is already set nothing happens; when
create_index raises with a message containing "already exists" the error is
treated as success and the flag is still set; any other error propagates. -/
def ensure_index_exists (create : CreateIndexOutcome) (s : VectorStoreState) :
    Except String (VectorStoreState × Bool) :=
  if s.index_created then .ok (s, false)
  else
    match create with
    | .success => .ok ({ s with index_created := true }, true)
    | .failure msg =>
      if mentionsAlreadyExists msg then .ok ({ s with index_created := true }, true)
      else .error msg

/-- Batch partitioning on lines 128-131 of src/db/cosmos_db.py:
documents[i : i + batch_size] for i in range(0, len(documents), batch_size).
Structural fuel recursion: the fuel starts at the list's length and a step
consumes at least one element, so the zero-fuel case with a nonempty list is
never reached from toBatches. A batch_size of zero would make Python's range
raise ValueError; every configuration in the source uses a positive size
(default 100). -/
def toBatchesF (bs : Nat) : Nat → List StoredDocument → List (List StoredDocument)
  | _, [] => []
  | 0, _ :: _ => []
  | fuel + 1, x :: xs =>
    if bs = 0 then []
    else (x :: xs).take bs :: toBatchesF bs fuel ((x :: xs).drop bs)

/-- Batches of batch_size consecutive documents. -/
def toBatches (bs : Nat) (l : List StoredDocument) : List (List StoredDocument) :=
  toBatchesF bs l.length l

/-- VectorStore.batch_add_documents (src/db/cosmos_db.py lines 101-153) on
the Document branch the pipeline uses. It ensures the index exists, cuts the
documents into batches, and each process_batch call hands its whole batch to
the underlying store's add_documents, which appends the batch and returns one
id per document; asyncio.gather keeps the batch order and the final list
comprehension flattens the per-batch results. The function inspects no
metadata: there is no tenant_id check anywhere on this path. The returned
list stands for the flattened ids, one per written document. -/
def batch_add_documents (create : CreateIndexOutcome) (s : VectorStoreState)
    (documents : List StoredDocument) :
    Except String (VectorStoreState × List StoredDocument) :=
  match ensure_index_exists create s with
  | .error e => .error e
  | .ok (s1, _) =>
    let doc_batches := toBatches s1.batch_size documents
    .ok ({ s1 with stored := s1.stored ++ doc_batches.flatten }, doc_batches.flatten)

/-! ## BatchPdfConverter (src/document_processing/pdf_parser.py) -/

/-- Result dict of batch_convert_pdfs: lists of file names plus a total. -/
structure ConvResults where
  successful : List String
  failed : List String
  total : Nat
deriving DecidableEq

/-- BatchPdfConverter.convert_single_pdf (lines 91-117). The marker converter
call and the output write sit inside try/except Exception: a per-file
extraction failure is caught, logged and reported as (path, False), never
propagated. The external extractor is the oracle extractOk. -/
def convert_single_pdf (extractOk : String → Bool) (pdf_name : String) : String × Bool :=
  (pdf_name, extractOk pdf_name)

/-- BatchPdfConverter.batch_convert_pdfs (lines 119-153): with no staged
files it returns successful=[], failed=[], total=0 without error; otherwise
it converts every file in order, appending each name to successful or failed
according to the per-file outcome. -/
def batch_convert_pdfs (extractOk : String → Bool) (pdf_files : List String) : ConvResults :=
  if pdf_files = [] then { successful := [], failed := [], total := 0 }
  else
    pdf_files.foldl
      (fun results pdf_name =>
        let conv := convert_single_pdf extractOk pdf_name
        if conv.2 then { results with successful := results.successful ++ [conv.1] }
        else { results with failed := results.failed ++ [conv.1] })
      { successful := [], failed := [], total := pdf_files.length }

/-! ## DocumentProcessor (src/document_processing/text_splitter.py) and the
langchain CharacterTextSplitter that split_text delegates to.

split_text builds a CharacterTextSplitter(chunk_overlap, chunk_size,
separator, strip_whitespace, length_function=len) with the default
keep_separator=False, calls split_documents over the accumulated inputs and
drops every chunk shorter than min_chunk_size. The splitter splits each text
on the literal separator (re.split over the escaped separator), drops empty
pieces, and greedily re-merges consecutive pieces into chunks of at most
chunk_size characters, carrying at most chunk_overlap trailing characters
over into the next chunk; a single piece longer than chunk_size is emitted
whole (the library only logs a warning). Each chunk inherits a copy of its
source document's metadata. The texts held in the processor state are the
cleaned texts (DocumentProcessor._clean_text runs on add, before split). -/

/-- One accumulated input or output chunk of DocumentProcessor: the Data
dataclass of text_splitter.py (text plus metadata dict). -/
structure Data where
  text : Chars
  data : Dict
deriving DecidableEq

/-- Configuration of DocumentProcessor as forwarded to the splitter. The
separator is the value after html.unescape. cleanup happens on add, so it
does not appear here. -/
structure ChunkerConfig where
  chunk_size : Nat := 1000
  chunk_overlap : Nat := 200
  separator : Chars := [Char.ofNat 10, Char.ofNat 10]
  min_chunk_size : Nat := 100
  strip_whitespace : Bool := true
deriving DecidableEq

/-- Python separator.join(docs). -/
def joinSep (sep : Chars) : List Chars → Chars
  | [] => []
  | [x] => x
  | x :: y :: xs => x ++ sep ++ joinSep sep (y :: xs)

/-- Python text.strip() from the left only. -/
def trimL (s : Chars) : Chars :=
  s.dropWhile (fun c => c.isWhitespace)

/-- Python text.strip(): whitespace removed from both ends. -/
def trim (s : Chars) : Chars :=
  ((s.dropWhile (fun c => c.isWhitespace)).reverse.dropWhile (fun c => c.isWhitespace)).reverse

/-- Literal leftmost non-overlapping split, the behaviour of
re.split(re.escape(separator), text). Structural fuel recursion: each
recursive call consumes at least one character (a match consumes the
separator, whose length is at least one on the branch that tests it), so the
zero-fuel case with nonempty text is never reached from splitOnSep. -/
def splitOnSepF (sep : Chars) : Nat → Chars → List Chars
  | _, [] => [[]]
  | 0, c :: rest => [c :: rest]
  | fuel + 1, c :: rest =>
    if sep ≠ [] ∧ sep.isPrefixOf (c :: rest) then
      [] :: splitOnSepF sep fuel ((c :: rest).drop sep.length)
    else
      match splitOnSepF sep fuel rest with
      | [] => [[c]]
      | p :: ps => (c :: p) :: ps

/-- Pieces of text between occurrences of the literal separator. -/
def splitOnSep (sep text : Chars) : List Chars :=
  splitOnSepF sep text.length text

/-- langchain _split_text_with_regex with keep_separator=False: re.split on
the escaped separator when the separator is truthy, list(text) otherwise
(empty pieces are filtered by the caller). -/
def splitSeparated (sep text : Chars) : List Chars :=
  if sep = [] then text.map (fun c => [c]) else splitOnSep sep text

/-- langchain TextSplitter._join_docs: join with the separator, strip when
configured, and return None when the result is empty. -/
def joinDocs (cfg : ChunkerConfig) (docs : List Chars) : Option Chars :=
  let text := joinSep cfg.separator docs
  let text := if cfg.strip_whitespace then trim text else text
  if text = [] then none else some text

/-- Append the joined current window to the emitted chunks when _join_docs
yields a document. -/
def appendDoc (cfg : ChunkerConfig) (acc : List Chars) (cur : List Chars) : List Chars :=
  match joinDocs cfg cur with
  | some doc => acc ++ [doc]
  | none => acc

/-- The pop loop inside langchain TextSplitter._merge_splits: while the
running total exceeds chunk_overlap, or adding the next piece would still
overflow chunk_size and the window is nonempty, drop the window's first
piece and subtract its length plus a separator when one followed it. The
running total is a Python int, so it is carried as Int. When the window is
empty the total is zero by the accounting invariant and the Python loop
condition is false, matching the base case here. -/
def popLoop (cfg : ChunkerConfig) (lenD : Int) : List Chars → Int → List Chars × Int
  | [], total => ([], total)
  | c :: rest, total =>
    if total > (cfg.chunk_overlap : Int) ∨
        (total + lenD + (if (c :: rest).length > 0 then (cfg.separator.length : Int) else 0) >
            (cfg.chunk_size : Int) ∧
          total > 0) then
      popLoop cfg lenD rest
        (total - ((c.length : Int) + if rest.length > 0 then (cfg.separator.length : Int) else 0))
    else (c :: rest, total)

/-- The overflow block at the top of each iteration of
langchain TextSplitter._merge_splits: when appending the next piece d would
push the window past chunk_size, the window (if nonempty) is joined and
emitted and then shrunk from the front by the pop loop; otherwise the
state is unchanged. (The library also logs a warning when the emitted total
already exceeds chunk_size; logging has no effect on the result.) -/
def mergeStep (cfg : ChunkerConfig) (d : Chars) (acc cur : List Chars) (total : Int) :
    List Chars × List Chars × Int :=
  if total + (d.length : Int) + (if cur.length > 0 then (cfg.separator.length : Int) else 0) >
      (cfg.chunk_size : Int) then
    if cur.length > 0 then
      let popped := popLoop cfg (d.length : Int) cur total
      (appendDoc cfg acc cur, popped.1, popped.2)
    else (acc, cur, total)
  else (acc, cur, total)

/-- The main loop of langchain TextSplitter._merge_splits over the pieces:
the overflow block runs first, then the piece is appended to the window and
the total updated, counting a separator whenever the window now holds more
than one piece. -/
def mergeGo (cfg : ChunkerConfig) :
    List Chars → List Chars → List Chars → Int → List Chars × List Chars × Int
  | [], acc, cur, total => (acc, cur, total)
  | d :: ds, acc, cur, total =>
    let step := mergeStep cfg d acc cur total
    let cur2 := step.2.1 ++ [d]
    let total2 :=
      step.2.2 + (d.length : Int) +
        (if cur2.length > 1 then (cfg.separator.length : Int) else 0)
    mergeGo cfg ds step.1 cur2 total2

/-- Final join of langchain TextSplitter._merge_splits after the loop. -/
def mergeFinish (cfg : ChunkerConfig) (r : List Chars × List Chars × Int) : List Chars :=
  appendDoc cfg r.1 r.2.1

/-- langchain TextSplitter._merge_splits. -/
def mergeSplits (cfg : ChunkerConfig) (splits : List Chars) : List Chars :=
  mergeFinish cfg (mergeGo cfg splits [] [] 0)

/-- langchain CharacterTextSplitter.split_text: split on the literal
separator, drop empty pieces, merge. -/
def splitterSplitText (cfg : ChunkerConfig) (text : Chars) : List Chars :=
  mergeSplits cfg ((splitSeparated cfg.separator text).filter (fun s => !s.isEmpty))

/-- langchain TextSplitter.split_documents: each document's text is split
and every resulting chunk carries a (deep) copy of the document's
metadata, in document order. -/
def splitDocuments (cfg : ChunkerConfig) (inputs : List Data) : List Data :=
  inputs.flatMap (fun d => (splitterSplitText cfg d.text).map (fun c => Data.mk c d.data))

/-- DocumentProcessor.split_text (text_splitter.py lines 106-139): split the
accumulated inputs and drop every chunk whose text is shorter than
min_chunk_size. The langchain constructor additionally rejects
chunk_overlap greater than chunk_size with a ValueError; all configurations
below the spec's defaults satisfy that check and the theorems hold for any
parameters of the embedding. -/
def split_text (cfg : ChunkerConfig) (data_inputs : List Data) : List Data :=
  (splitDocuments cfg data_inputs).filter (fun c => cfg.min_chunk_size ≤ c.text.length)

/-- The contribution of one source document to split_text's output: its own
chunks after the min_chunk_size filter. -/
def docChunks (cfg : ChunkerConfig) (d : Data) : List Data :=
  ((splitterSplitText cfg d.text).map (fun c => Data.mk c d.data)).filter
    (fun c => cfg.min_chunk_size ≤ c.text.length)

/-- The state of a DocumentProcessor instance: accumulated inputs (already
cleaned on add) and the chunks recorded by the last split_text call. -/
structure ProcessorState where
  data_inputs : List Data
  status : List Data
deriving DecidableEq

/-- The dict returned by DocumentProcessor.get_status. The average is the
exact rational value of Python's float division. -/
structure StatusReport where
  input_documents : Nat
  output_chunks : Nat
  average_chunk_size : ℚ
  total_characters : Nat
deriving DecidableEq

/-- DocumentProcessor.get_status (text_splitter.py lines 141-148): counts,
total characters, and the average guarded by the conditional expression
sum/len if self.status else 0. -/
def get_status (s : ProcessorState) : StatusReport :=
  { input_documents := s.data_inputs.length
    output_chunks := s.status.length
    average_chunk_size :=
      if s.status ≠ [] then
        (((s.status.map (fun d => d.text.length)).sum : ℚ)) / ((s.status.length : ℚ))
      else 0
    total_characters := (s.status.map (fun d => d.text.length)).sum }

/-- Length of the longest run of characters shared between the end of a and
the start of b: the overlap two consecutive chunks actually share. -/
def maxOverlap (a b : Chars) : Nat :=
  ((List.range (min a.length b.length + 1)).filter
    (fun k => a.drop (a.length - k) = b.take k)).foldr max 0

/-! ## DocumentPipeline.process_pdfs (src/pipeline.py lines 70-156) -/

/-- The external collaborators one attempt of process_pdfs interacts with:
the staged PDF files of the tenant, the extractor outcome per file, the
converted markdown text read back per successful file, the deterministic
_clean_text cleanup applied on add (its regex internals are not needed by
any claim settled here), the rendered output path per file, and the outcome
of the index-creation call. -/
structure PipelineEnv where
  pdf_files : List String
  extractOk : String → Bool
  readText : String → Chars
  cleanText : Chars → Chars
  mdPath : String → String
  createOutcome : CreateIndexOutcome

/-- The statistics dict a successful process_pdfs call returns
(src/pipeline.py lines 144-152). -/
structure ProcessStats where
  tenant_id : String
  pdfs_processed : Nat
  pdfs_failed : Nat
  failed_files : List String
  chunks_created : Nat
  documents_stored : Nat
  processing_stats : StatusReport
deriving DecidableEq

/-- One attempt of DocumentPipeline.process_pdfs (the body inside the retry
decorator, src/pipeline.py lines 88-156): build base metadata with the
tenant id merged under any caller extras, convert the staged PDFs, raise
ValueError when no PDF converted, build one document per successful file
with merged metadata, clear the processor and split, re-assert the base
metadata on every chunk's metadata, write all chunks through
batch_add_documents, and return the statistics. The try/except around the
body logs and re-raises, leaving the outcome unchanged. -/
def process_pdfs_once (env : PipelineEnv) (tenant_id : String) (additional_metadata : Dict)
    (cfg : ChunkerConfig) (vs : VectorStoreState) :
    Except String (VectorStoreState × ProcessStats) :=
  let base_metadata := dictUpdate [(("tenant_id"), tenant_id)] additional_metadata
  let conversion_results := batch_convert_pdfs env.extractOk env.pdf_files
  if conversion_results.successful = [] then
    .error ("No PDFs were successfully converted")
  else
    let documents := conversion_results.successful.map (fun filename =>
      let doc_metadata := dictUpdate base_metadata
        [(("source"), filename), (("type"), ("pdf")), (("original_path"), env.mdPath filename)]
      Data.mk (env.cleanText (env.readText filename)) doc_metadata)
    let chunks := split_text cfg documents
    let langchain_docs := chunks.map (fun c =>
      StoredDocument.mk c.text (dictUpdate c.data base_metadata))
    match batch_add_documents env.createOutcome vs langchain_docs with
    | .error e => .error e
    | .ok (vs', _) =>
      .ok (vs',
        { tenant_id := tenant_id
          pdfs_processed := conversion_results.successful.length
          pdfs_failed := conversion_results.failed.length
          failed_files := conversion_results.failed
          chunks_created := chunks.length
          documents_stored := chunks.length
          processing_stats := get_status (ProcessorState.mk documents chunks) })

/-- The tenacity retry loop: run the body for the given attempt number; on
an error, retry with the next attempt number while fuel remains, otherwise
propagate the last error. -/
def retryGo (body : Nat → Except String α) : Nat → Nat → Except String α
  | attempt_number, fuel =>
    match body attempt_number with
    | .ok a => .ok a
    | .error e =>
      match fuel with
      | 0 => .error e
      | fuel' + 1 => retryGo body (attempt_number + 1) fuel'
termination_by _ fuel => fuel

/-- tenacity retry(stop=stop_after_attempt(n)): at most n calls of the body,
starting with attempt number 1. -/
def runWithStopAfter (maxAttempts : Nat) (body : Nat → Except String α) : Except String α :=
  retryGo body 1 (maxAttempts - 1)

/-- tenacity wait_exponential(multiplier=1, min=4, max=10) evaluated after
the given attempt number: max(max(0, min), min(multiplier * 2 ** attempt, max)),
in whole seconds. -/
def waitExponentialSeconds (attempt_number : Nat) : Nat :=
  max (max 0 4) (min (1 * 2 ^ attempt_number) 10)

/-- DocumentPipeline.process_pdfs as decorated on line 70 of src/pipeline.py:
the body retried up to 3 attempts. External conditions may differ between
attempts, so the environment is indexed by the attempt number. -/
def process_pdfs (envs : Nat → PipelineEnv) (tenant_id : String) (additional_metadata : Dict)
    (cfg : ChunkerConfig) (vs : VectorStoreState) :
    Except String (VectorStoreState × ProcessStats) :=
  runWithStopAfter 3 (fun n => process_pdfs_once (envs n) tenant_id additional_metadata cfg vs)

/-! ## Attribute and signature model for the failing search path
(src/pipeline.py lines 158-199 and src/db/cosmos_db.py lines 39-195). -/

/-- Names resolvable on a VectorStore instance: the attributes __init__
assigns (src/db/cosmos_db.py lines 50-66) and the methods of the class.
create_metadata_filter is not among them. -/
def vectorStoreAttributes : List String :=
  [("connection_string"), ("namespace"), ("index_name"), ("embedding_model"),
   ("config"), ("batch_config"), ("_index_created"), ("vector_store"),
   ("_get_default_embeddings"), ("ensure_index_exists"), ("batch_add_documents"),
   ("advanced_search")]

/-- The parameter names of VectorStore.advanced_search (src/db/cosmos_db.py
lines 155-163); the signature has no parameter named filter and no
keyword-argument catch-all. -/
def advancedSearchParameters : List String :=
  [("query"), ("search_type"), ("metadata_filter"), ("k"), ("score_threshold"),
   ("mmr_lambda")]

/-- Python runtime errors the pipeline search path can raise while
resolving names. -/
inductive PyRuntimeError where
  | attributeError (attr : String)
  | typeError (keyword : String)
deriving DecidableEq

/-- A formatted search result as search_documents would return it. -/
structure SearchResultRecord where
  content : Chars
  metadata : Dict
  similarity_score : ℚ

/-- DocumentPipeline.search_documents (src/pipeline.py lines 158-199): build
the merged filter, then evaluate
self.vector_store.create_metadata_filter([base_filter]) — Python resolves
the attribute name on the instance first, raising AttributeError when the
class defines no such name — and then call advanced_search with the keyword
argument filter, which raises TypeError because the signature accepts no
parameter of that name. Neither lookup can succeed on this code, so the
success branch is unreachable. -/
def pipeline_search_documents (query : String) (tenant_id : String)
    (filter_criteria : Option Dict) (k : Nat) :
    Except PyRuntimeError (List SearchResultRecord) :=
  let _base_filter := build_search_filter tenant_id filter_criteria
  if ("create_metadata_filter") ∈ vectorStoreAttributes then
    if ("filter") ∈ advancedSearchParameters then
      .ok []
    else .error (.typeError ("filter"))
  else .error (.attributeError ("create_metadata_filter"))

/-! ## Concrete instances used by counterexamples and witnesses -/

/-- A vector-store state whose index flag is not yet set, with the default
batch configuration. -/
def vsReady : VectorStoreState :=
  { index_created := false, batch_size := 100, max_concurrency := 4, stored := [] }

/-- A vector-store state whose index flag is already set. -/
def vsReadyCreated : VectorStoreState :=
  { vsReady with index_created := true }

/-- A chunk/document whose metadata has no tenant_id key at all. -/
def docWithoutTenant : StoredDocument :=
  { page_content := [Char.ofNat 104, Char.ofNat 105]
    metadata := [(("source"), ("f.pdf"))] }

/-- An environment whose only staged file fails extraction on every
attempt. -/
def envNoneConvert : PipelineEnv :=
  { pdf_files := [("a.pdf")]
    extractOk := fun _ => false
    readText := fun _ => []
    cleanText := fun t => t
    mdPath := fun f => f
    createOutcome := .success }

/-- An environment whose only staged file extracts successfully and yields a
short text. -/
def envConvertOk : PipelineEnv :=
  { pdf_files := [("a.pdf")]
    extractOk := fun _ => true
    readText := fun _ => ("policy text body for acme").toList
    cleanText := fun t => t
    mdPath := fun f => f
    createOutcome := .success }

/-- Two failing attempts followed by a succeeding one: the transient-failure
scenario of the retry claim. -/
def envsTransient (attempt : Nat) : PipelineEnv :=
  if attempt ≤ 2 then envNoneConvert else envConvertOk

/-- A chunker configuration with a small chunk size for the concrete runs. -/
def cexCfgSmall : ChunkerConfig :=
  { chunk_size := 5, chunk_overlap := 2, separator := (" ").toList, min_chunk_size := 1
    strip_whitespace := true }

/-- A chunker configuration under which the overlap behaviour is visible. -/
def cexCfgOverlap : ChunkerConfig :=
  { chunk_size := 10, chunk_overlap := 3, separator := (" ").toList, min_chunk_size := 1
    strip_whitespace := true }

/-- A document whose text has no separator and exceeds the small chunk
size. -/
def cexDocLong : Data :=
  Data.mk (("abcdefgh").toList) [(("tenant_id"), ("t"))]

/-- A document of three separator-delimited words. -/
def cexDocWords : Data :=
  Data.mk (("aaaa bbbb cccc").toList) [(("tenant_id"), ("t"))]

/-! ## Helper lemmas -/

theorem batch_convert_foldl (extractOk : String → Bool) (files : List String)
    (acc : ConvResults) :
    files.foldl
      (fun results pdf_name =>
        let conv := convert_single_pdf extractOk pdf_name
        if conv.2 then { results with successful := results.successful ++ [conv.1] }
        else { results with failed := results.failed ++ [conv.1] }) acc =
      { successful := acc.successful ++ files.filter extractOk
        failed := acc.failed ++ files.filter (fun f => !extractOk f)
        total := acc.total } := by
  induction files generalizing acc with
  | nil => simp
  | cons f fs ih =>
    rw [List.foldl_cons, ih]
    cases h : extractOk f <;>
      simp [convert_single_pdf, h, List.filter_cons, List.append_assoc]

theorem filter_length_partition (p : String → Bool) (l : List String) :
    (l.filter p).length + (l.filter (fun f => !p f)).length = l.length := by
  induction l with
  | nil => rfl
  | cons x xs ih =>
    cases h : p x <;> simp [List.filter_cons, h] <;> omega

theorem toBatchesF_flatten (bs : Nat) (hbs : 1 ≤ bs) :
    ∀ (fuel : Nat) (l : List StoredDocument), l.length ≤ fuel →
      (toBatchesF bs fuel l).flatten = l := by
  intro fuel
  induction fuel with
  | zero =>
    intro l hl
    have hnil : l = [] := List.eq_nil_of_length_eq_zero (by omega)
    subst hnil
    simp [toBatchesF]
  | succ fuel ih =>
    intro l hl
    cases l with
    | nil => simp [toBatchesF]
    | cons x xs =>
      have hbs' : ¬bs = 0 := by omega
      have hlen : ((x :: xs).drop bs).length ≤ fuel := by
        simp only [List.length_drop, List.length_cons]
        simp only [List.length_cons] at hl
        omega
      simp only [toBatchesF, hbs', if_false]
      rw [List.flatten_cons, ih ((x :: xs).drop bs) hlen]
      exact List.take_append_drop bs (x :: xs)

theorem toBatches_flatten (bs : Nat) (hbs : 1 ≤ bs) (l : List StoredDocument) :
    (toBatches bs l).flatten = l :=
  toBatchesF_flatten bs hbs l.length l le_rfl

/-! ## Claim C1 -/

/-- C1 (code bug): search_documents is specified to query the index with a
filter whose tenant_id entry always equals the caller's tenantId, with
caller filters unable to override it. The code merges the caller's filter
with dict.update after seeding tenant_id, so a caller entry for tenant_id
wins: at tenant A with caller filter tenant_id = B, the merged filter the
code would query with carries tenant_id = B. -/
theorem search_filter_tenant_override_bug :
    dictGet (build_search_filter ("A") (some [(("tenant_id"), ("B"))])) ("tenant_id") =
      some ("B") ∧ ("B" : String) ≠ ("A" : String) := by
  constructor
  · rfl
  · decide

/-! ## Claim C10 -/

/-- C10: every invocation of the pipeline-level search raises before
returning results: the attribute create_metadata_filter does not exist on
VectorStore, so Python raises AttributeError on line 182 of src/pipeline.py
(and even past it, the advanced_search call on lines 184-188 passes the
keyword filter which the signature rejects with TypeError). -/
theorem pipeline_search_always_raises (query tenant_id : String)
    (filter_criteria : Option Dict) (k : Nat) :
    pipeline_search_documents query tenant_id filter_criteria k =
      .error (.attributeError ("create_metadata_filter")) := rfl

/-! ## Claim C5 -/

/-- C5: get_status is a total function of the processor state; with zero
chunks the average is the literal 0 (the conditional expression guards the
division), and otherwise it is the exact quotient of the total length by the
chunk count; counts and total are always returned. -/
theorem get_status_safe (s : ProcessorState) :
    (s.status = [] → (get_status s).average_chunk_size = 0) ∧
    (s.status ≠ [] → (get_status s).average_chunk_size =
      (((s.status.map (fun d => d.text.length)).sum : ℚ)) / ((s.status.length : ℚ))) ∧
    (get_status s).output_chunks = s.status.length ∧
    (get_status s).input_documents = s.data_inputs.length ∧
    (get_status s).total_characters = (s.status.map (fun d => d.text.length)).sum := by
  refine ⟨fun h => ?_, fun h => ?_, rfl, rfl, rfl⟩
  · simp [get_status, h]
  · simp [get_status, h]

/-! ## Claim C6 -/

/-- C6: batch conversion partitions the tenant's files: successful holds
exactly the files whose extraction succeeded and failed exactly the others,
each in file order, so a single failure never aborts the remaining files;
successful and failed together account for total, which is the number of
staged files; with no files at all the result is successful=[], failed=[],
total=0 and no error is possible (the embedding is a total function). -/
theorem batch_convert_partitions (extractOk : String → Bool) (pdf_files : List String) :
    (batch_convert_pdfs extractOk pdf_files).successful = pdf_files.filter extractOk ∧
    (batch_convert_pdfs extractOk pdf_files).failed =
      pdf_files.filter (fun f => !extractOk f) ∧
    (batch_convert_pdfs extractOk pdf_files).total = pdf_files.length ∧
    (batch_convert_pdfs extractOk pdf_files).successful.length +
        (batch_convert_pdfs extractOk pdf_files).failed.length =
      (batch_convert_pdfs extractOk pdf_files).total ∧
    batch_convert_pdfs extractOk [] = { successful := [], failed := [], total := 0 } := by
  by_cases h : pdf_files = []
  · subst h
    exact ⟨rfl, rfl, rfl, rfl, rfl⟩
  · have hb := batch_convert_foldl extractOk pdf_files
      { successful := [], failed := [], total := pdf_files.length }
    unfold batch_convert_pdfs
    rw [if_neg h, hb]
    refine ⟨by simp, by simp, rfl, ?_, rfl⟩
    simpa using filter_length_partition extractOk pdf_files

/-! ## Claim C9 -/

/-- C9: ensure_index_exists is idempotent. Whenever one call returned
normally, the next call on the resulting state performs no index-creation
action (the returned flag is false) and returns normally whatever the
creation oracle would do; and on a fresh state a creation failure whose
message contains "already exists" is treated as success, setting the flag. -/
theorem ensure_index_ready_idempotent (create create' : CreateIndexOutcome)
    (s s' : VectorStoreState) (invoked : Bool) :
    (ensure_index_exists create s = .ok (s', invoked) →
      ensure_index_exists create' s' = .ok (s', false)) ∧
    (∀ msg, s.index_created = false → mentionsAlreadyExists msg = true →
      ensure_index_exists (.failure msg) s =
        .ok ({ s with index_created := true }, true)) := by
  constructor
  · intro h
    have hs' : s'.index_created = true := by
      unfold ensure_index_exists at h
      by_cases hc : s.index_created
      · rw [if_pos hc] at h
        obtain ⟨rfl, rfl⟩ : s = s' ∧ false = invoked := by
          simpa using h
        exact hc
      · rw [if_neg hc] at h
        cases create with
        | success =>
          obtain ⟨rfl, rfl⟩ : { s with index_created := true } = s' ∧ true = invoked := by
            simpa using h
          rfl
        | failure msg =>
          by_cases hm : mentionsAlreadyExists msg = true
          · simp only [hm, if_true] at h
            obtain ⟨rfl, rfl⟩ : { s with index_created := true } = s' ∧ true = invoked := by
              simpa using h
            rfl
          · simp [hm] at h
    unfold ensure_index_exists
    rw [if_pos hs']
  · intro msg h1 h2
    simp [ensure_index_exists, h1, h2]

/-! ## Claim C2 -/

/-- C2 counterexample: the claim says a batch write containing a chunk whose
metadata lacks tenant_id raises before anything reaches the index. On the
code, writing such a document returns normally and the document is stored:
batch_add_documents performs no metadata inspection at all. -/
theorem batch_add_missing_tenant_not_rejected :
    dictContains docWithoutTenant.metadata ("tenant_id") = false ∧
    batch_add_documents .success vsReady [docWithoutTenant] =
      .ok ({ vsReady with index_created := true, stored := [docWithoutTenant] },
        [docWithoutTenant]) := by
  exact ⟨rfl, rfl⟩

/-- C2 amended: batch_add_documents applies no tenant_id check. Whenever the
index-readiness step returns normally and the batch size is positive, the
write returns normally and appends every submitted document to the
collection unchanged — documents without tenant_id included — returning one
id per document. -/
theorem batch_add_writes_all_documents (create : CreateIndexOutcome)
    (s s1 : VectorStoreState) (invoked : Bool) (documents : List StoredDocument)
    (h : ensure_index_exists create s = .ok (s1, invoked)) (hbs : 1 ≤ s1.batch_size) :
    batch_add_documents create s documents =
      .ok ({ s1 with stored := s1.stored ++ documents }, documents) := by
  unfold batch_add_documents
  rw [h]
  simp [toBatches_flatten s1.batch_size hbs documents]

/-- Witness for the amended C2 theorem at a concrete input: a single
document without tenant_id is written and stored. -/
theorem batch_add_writes_all_documents_witness :
    batch_add_documents .success vsReadyCreated [docWithoutTenant] =
      .ok ({ vsReadyCreated with stored := vsReadyCreated.stored ++ [docWithoutTenant] },
        [docWithoutTenant]) :=
  batch_add_writes_all_documents .success vsReadyCreated vsReadyCreated false
    [docWithoutTenant] rfl (by decide)

/-! ## Claim C7 -/

/-- C7: when conversion yields zero successfully converted files, one
attempt of process_pdfs fails with the descriptive ValueError of line 99 of
src/pipeline.py. Nothing is chunked or written: the error is raised before
the split and store steps, and the error return carries no updated
vector-store state. -/
theorem process_fails_on_zero_conversions (env : PipelineEnv) (tenant_id : String)
    (additional_metadata : Dict) (cfg : ChunkerConfig) (vs : VectorStoreState)
    (h : (batch_convert_pdfs env.extractOk env.pdf_files).successful = []) :
    process_pdfs_once env tenant_id additional_metadata cfg vs =
      .error ("No PDFs were successfully converted") := by
  simp only [process_pdfs_once]
  rw [if_pos h]

/-- Witness for the C7 theorem at a concrete input: a tenant with one staged
file whose extraction fails. -/
theorem process_fails_on_zero_conversions_witness :
    process_pdfs_once envNoneConvert ("acme") [] {} vsReady =
      .error ("No PDFs were successfully converted") :=
  process_fails_on_zero_conversions envNoneConvert ("acme") [] {} vsReady rfl

/-! ## Claim C8 -/

/-- C8: the retry wrapper on process_pdfs makes at most 3 attempts with
tenacity wait_exponential(multiplier=1, min=4, max=10) pauses. When the
first two attempts fail, the whole call's outcome is exactly the third
attempt's outcome — so a success on attempt 3 is returned as the call's
success statistics and a third failure propagates to the caller — when the
first attempt succeeds its result is returned at once, and every pause
lies between the 4-second base and the 10-second cap. -/
theorem process_retry_semantics (envs : Nat → PipelineEnv) (tenant_id : String)
    (additional_metadata : Dict) (cfg : ChunkerConfig) (vs : VectorStoreState) :
    (∀ e1 e2,
      process_pdfs_once (envs 1) tenant_id additional_metadata cfg vs = .error e1 →
      process_pdfs_once (envs 2) tenant_id additional_metadata cfg vs = .error e2 →
      process_pdfs envs tenant_id additional_metadata cfg vs =
        process_pdfs_once (envs 3) tenant_id additional_metadata cfg vs) ∧
    (∀ r, process_pdfs_once (envs 1) tenant_id additional_metadata cfg vs = .ok r →
      process_pdfs envs tenant_id additional_metadata cfg vs = .ok r) ∧
    (∀ n, 4 ≤ waitExponentialSeconds n ∧ waitExponentialSeconds n ≤ 10) := by
  refine ⟨?_, ?_, ?_⟩
  · intro e1 e2 h1 h2
    unfold process_pdfs runWithStopAfter
    rw [retryGo.eq_def]
    simp only [h1]
    rw [retryGo.eq_def]
    simp only [h2]
    rw [retryGo.eq_def]
    cases h3 : process_pdfs_once (envs 3) tenant_id additional_metadata cfg vs <;>
      simp only [h3]
  · intro r h1
    unfold process_pdfs runWithStopAfter
    rw [retryGo.eq_def]
    simp only [h1]
  · intro n
    unfold waitExponentialSeconds
    have h0 : max 0 4 = 4 := rfl
    rw [h0, one_mul]
    exact ⟨le_max_left 4 _, max_le (by norm_num) (min_le_right _ _)⟩

/-- Witness for the C8 theorem: with two failing attempts and a succeeding
third one, the retried call returns the third attempt's outcome. -/
theorem process_retry_semantics_witness :
    process_pdfs envsTransient ("acme") [] {} vsReady =
      process_pdfs_once (envsTransient 3) ("acme") [] {} vsReady :=
  (process_retry_semantics envsTransient ("acme") [] {} vsReady).1
    ("No PDFs were successfully converted") ("No PDFs were successfully converted")
    rfl rfl

/-! ## Splitter lemmas: join, strip, and the split-join identity -/

theorem joinSep_cons_cons (sep : Chars) (x y : Chars) (xs : List Chars) :
    joinSep sep (x :: y :: xs) = x ++ sep ++ joinSep sep (y :: xs) := rfl

theorem joinSep_cons_head (sep : Chars) (c : Char) (p : Chars) (ps : List Chars) :
    joinSep sep ((c :: p) :: ps) = c :: joinSep sep (p :: ps) := by
  cases ps with
  | nil => rfl
  | cons q qs => simp [joinSep_cons_cons, List.cons_append]

theorem joinLen_cons (sep : Chars) (x : Chars) (xs : List Chars) (h : xs ≠ []) :
    (joinSep sep (x :: xs)).length = x.length + sep.length + (joinSep sep xs).length := by
  cases xs with
  | nil => exact absurd rfl h
  | cons y ys =>
    simp [joinSep_cons_cons, List.length_append]
    omega

theorem joinLen_cons_le (sep : Chars) (x : Chars) (xs : List Chars) :
    (joinSep sep xs).length ≤ (joinSep sep (x :: xs)).length := by
  cases xs with
  | nil => simp [joinSep]
  | cons y ys =>
    rw [joinLen_cons sep x (y :: ys) (by simp)]
    omega

theorem joinLen_le_of_sublist (sep : Chars) {l1 l2 : List Chars} (h : l1.Sublist l2) :
    (joinSep sep l1).length ≤ (joinSep sep l2).length := by
  induction h with
  | slnil => exact le_rfl
  | cons x h ih => exact ih.trans (joinLen_cons_le sep x _)
  | cons₂ x h ih =>
    rename_i la lb
    cases la with
    | nil =>
      cases lb with
      | nil => exact le_rfl
      | cons y ys =>
        rw [joinLen_cons sep x (y :: ys) (by simp)]
        simp [joinSep]
        omega
    | cons a as =>
      have hne2 : lb ≠ [] := by
        intro hnil
        subst hnil
        simp at h
      rw [joinLen_cons sep x (a :: as) (by simp), joinLen_cons sep x lb hne2]
      omega

theorem joinLen_append_singleton (sep : Chars) (l : List Chars) (d : Chars) :
    (joinSep sep (l ++ [d])).length =
      (joinSep sep l).length + (if l = [] then 0 else sep.length) + d.length := by
  induction l with
  | nil => simp [joinSep]
  | cons x xs ih =>
    cases xs with
    | nil =>
      simp [joinSep_cons_cons, joinSep, List.length_append]
      omega
    | cons y ys =>
      simp only [List.cons_append]
      rw [joinSep_cons_cons sep x y (ys ++ [d]), joinSep_cons_cons sep x y ys]
      have hih := ih
      simp only [List.cons_append] at hih
      rw [if_neg (by simp)] at hih
      simp only [List.length_append]
      rw [hih, if_neg (by simp)]
      omega

theorem joinLen_pos (sep : Chars) (l : List Chars) (hne : l ≠ [])
    (h : ∀ p ∈ l, p ≠ []) : 1 ≤ (joinSep sep l).length := by
  cases l with
  | nil => exact absurd rfl hne
  | cons x xs =>
    have hx1 : 1 ≤ x.length := by
      have hx : x ≠ [] := h x (by simp)
      cases x with
      | nil => exact absurd rfl hx
      | cons c cs => simp
    cases xs with
    | nil => simpa [joinSep] using hx1
    | cons y ys =>
      rw [joinLen_cons sep x (y :: ys) (by simp)]
      omega

theorem trim_length_le (s : Chars) : (trim s).length ≤ s.length := by
  unfold trim
  rw [List.length_reverse]
  have h1 := (List.dropWhile_sublist
    (l := (s.dropWhile (fun c => c.isWhitespace)).reverse)
    (fun c : Char => c.isWhitespace)).length_le
  have h2 := (List.dropWhile_sublist (l := s) (fun c : Char => c.isWhitespace)).length_le
  simp only [List.length_reverse] at h1
  omega

theorem appendDoc_mem (cfg : ChunkerConfig) (acc cur : List Chars) (doc : Chars)
    (h : doc ∈ appendDoc cfg acc cur) :
    doc ∈ acc ∨ doc.length ≤ (joinSep cfg.separator cur).length := by
  unfold appendDoc joinDocs at h
  set t0 := joinSep cfg.separator cur with ht0
  set t1 := if cfg.strip_whitespace then trim t0 else t0 with ht1
  have hlen : t1.length ≤ t0.length := by
    rw [ht1]
    split
    · exact trim_length_le t0
    · exact le_rfl
  by_cases he : t1 = []
  · rw [if_pos he] at h
    exact Or.inl h
  · rw [if_neg he] at h
    rcases List.mem_append.mp h with h' | h'
    · exact Or.inl h'
    · right
      rw [List.mem_singleton.mp h']
      exact hlen

theorem splitOnSepF_ne_nil (sep : Chars) :
    ∀ (fuel : Nat) (t : Chars), splitOnSepF sep fuel t ≠ [] := by
  intro fuel
  induction fuel with
  | zero => intro t; cases t <;> simp [splitOnSepF]
  | succ fuel ih =>
    intro t
    cases t with
    | nil => simp [splitOnSepF]
    | cons c rest =>
      by_cases hp : sep ≠ [] ∧ sep.isPrefixOf (c :: rest)
      · simp [splitOnSepF, hp]
      · simp only [splitOnSepF, hp, if_false]
        cases hsp : splitOnSepF sep fuel rest <;> simp

theorem joinSep_splitOnSepF (sep : Chars) (hsep : sep ≠ []) :
    ∀ (fuel : Nat) (t : Chars), t.length ≤ fuel →
      joinSep sep (splitOnSepF sep fuel t) = t := by
  intro fuel
  induction fuel with
  | zero =>
    intro t ht
    have hnil : t = [] := List.eq_nil_of_length_eq_zero (by omega)
    subst hnil
    simp [splitOnSepF, joinSep]
  | succ fuel ih =>
    intro t ht
    cases t with
    | nil => simp [splitOnSepF, joinSep]
    | cons c rest =>
      by_cases hp : sep ≠ [] ∧ sep.isPrefixOf (c :: rest)
      · simp only [splitOnSepF, if_pos hp]
        have hpre : sep <+: (c :: rest) := List.isPrefixOf_iff_prefix.mp hp.2
        have happ : sep ++ (c :: rest).drop sep.length = c :: rest :=
          List.prefix_iff_eq_append.mp hpre
        have hs1 : 1 ≤ sep.length := by
          cases sep with
          | nil => exact absurd rfl hsep
          | cons a as => simp
        have hlen2 : ((c :: rest).drop sep.length).length ≤ fuel := by
          simp only [List.length_drop, List.length_cons]
          simp only [List.length_cons] at ht
          omega
        cases hsp : splitOnSepF sep fuel ((c :: rest).drop sep.length) with
        | nil => exact absurd hsp (splitOnSepF_ne_nil sep fuel _)
        | cons p ps =>
          have hj := ih ((c :: rest).drop sep.length) hlen2
          rw [hsp] at hj
          rw [joinSep_cons_cons, hj]
          simpa using happ
      · simp only [splitOnSepF, if_neg hp]
        have hrest : rest.length ≤ fuel := by
          simp only [List.length_cons] at ht
          omega
        cases hsp : splitOnSepF sep fuel rest with
        | nil => exact absurd hsp (splitOnSepF_ne_nil sep fuel rest)
        | cons p ps =>
          have hj := ih rest hrest
          rw [hsp] at hj
          rw [joinSep_cons_head, hj]

theorem joinSep_nil_map_singleton (text : Chars) :
    joinSep [] (text.map (fun c => [c])) = text := by
  induction text with
  | nil => rfl
  | cons c rest ih =>
    cases rest with
    | nil => rfl
    | cons c2 r2 =>
      rw [List.map_cons]
      rw [show (c2 :: r2).map (fun c => [c]) = [c2] :: r2.map (fun c => [c]) from rfl]
      rw [joinSep_cons_cons]
      rw [show ([c2] : Chars) :: r2.map (fun c => [c]) = (c2 :: r2).map (fun c => [c]) from rfl]
      rw [ih]
      simp

theorem joinSep_splitSeparated (sep text : Chars) :
    joinSep sep (splitSeparated sep text) = text := by
  unfold splitSeparated
  by_cases hsep : sep = []
  · rw [if_pos hsep, hsep]
    exact joinSep_nil_map_singleton text
  · rw [if_neg hsep]
    exact joinSep_splitOnSepF sep hsep text.length text le_rfl

theorem joinLen_splits_le (cfg : ChunkerConfig) (text : Chars) :
    (joinSep cfg.separator
        ((splitSeparated cfg.separator text).filter (fun s => !s.isEmpty))).length ≤
      text.length := by
  calc (joinSep cfg.separator
          ((splitSeparated cfg.separator text).filter (fun s => !s.isEmpty))).length
      ≤ (joinSep cfg.separator (splitSeparated cfg.separator text)).length :=
        joinLen_le_of_sublist _ (List.filter_sublist _)
    _ = text.length := congrArg List.length (joinSep_splitSeparated _ _)

/-! ## Pop-loop and merge-loop invariants -/

theorem popLoop_suffix (cfg : ChunkerConfig) (lenD : Int) :
    ∀ (cur : List Chars) (total : Int), (popLoop cfg lenD cur total).1 <:+ cur := by
  intro cur
  induction cur with
  | nil => intro total; simp [popLoop]
  | cons c rest ih =>
    intro total
    simp only [popLoop]
    rw [if_pos (show (c :: rest).length > 0 by simp)]
    by_cases hcond : total > (cfg.chunk_overlap : Int) ∨
        total + lenD + (cfg.separator.length : Int) > (cfg.chunk_size : Int) ∧ total > 0
    · rw [if_pos hcond]
      exact (ih _).trans (List.suffix_cons c rest)
    · rw [if_neg hcond]

theorem popLoop_total (cfg : ChunkerConfig) (lenD : Int) :
    ∀ (cur : List Chars) (total : Int),
      total = ((joinSep cfg.separator cur).length : Int) →
      (popLoop cfg lenD cur total).2 =
        ((joinSep cfg.separator (popLoop cfg lenD cur total).1).length : Int) := by
  intro cur
  induction cur with
  | nil =>
    intro total ht
    simpa [popLoop] using ht
  | cons c rest ih =>
    intro total ht
    simp only [popLoop]
    rw [if_pos (show (c :: rest).length > 0 by simp)]
    by_cases hcond : total > (cfg.chunk_overlap : Int) ∨
        total + lenD + (cfg.separator.length : Int) > (cfg.chunk_size : Int) ∧ total > 0
    · rw [if_pos hcond]
      apply ih
      cases rest with
      | nil =>
        simp only [joinSep] at ht
        simp [joinSep]
        omega
      | cons y ys =>
        rw [joinLen_cons cfg.separator c (y :: ys) (by simp)] at ht
        rw [if_pos (show (y :: ys).length > 0 by simp)]
        push_cast at ht ⊢
        omega
    · rw [if_neg hcond]
      exact ht

theorem popLoop_exit (cfg : ChunkerConfig) (lenD : Int) :
    ∀ (cur : List Chars) (total : Int),
      (popLoop cfg lenD cur total).1 = [] ∨
      ¬((popLoop cfg lenD cur total).2 > (cfg.chunk_overlap : Int) ∨
        ((popLoop cfg lenD cur total).2 + lenD +
            (if (popLoop cfg lenD cur total).1.length > 0 then
              (cfg.separator.length : Int) else 0) > (cfg.chunk_size : Int) ∧
          (popLoop cfg lenD cur total).2 > 0)) := by
  intro cur
  induction cur with
  | nil => intro total; left; simp [popLoop]
  | cons c rest ih =>
    intro total
    simp only [popLoop]
    simp only [if_pos (show (c :: rest).length > 0 by simp)]
    by_cases hcond : total > (cfg.chunk_overlap : Int) ∨
        total + lenD + (cfg.separator.length : Int) > (cfg.chunk_size : Int) ∧ total > 0
    · simp only [if_pos hcond]
      exact ih _
    · simp only [if_neg hcond]
      right
      simpa using hcond

theorem mergeStep_acc (cfg : ChunkerConfig) (d : Chars) (acc cur : List Chars)
    (total : Int) (doc : Chars) (h : doc ∈ (mergeStep cfg d acc cur total).1) :
    doc ∈ acc ∨ doc.length ≤ (joinSep cfg.separator cur).length := by
  unfold mergeStep at h
  by_cases hc : cur.length > 0
  · simp only [if_pos hc] at h
    by_cases hov : total + (d.length : Int) + (cfg.separator.length : Int) >
        (cfg.chunk_size : Int)
    · rw [if_pos hov] at h
      exact appendDoc_mem cfg acc cur doc h
    · rw [if_neg hov] at h
      exact Or.inl h
  · simp only [if_neg hc] at h
    rw [ite_self] at h
    exact Or.inl h

theorem mergeStep_cur (cfg : ChunkerConfig) (d : Chars) (acc cur : List Chars)
    (total : Int) : (mergeStep cfg d acc cur total).2.1.Sublist cur := by
  unfold mergeStep
  by_cases hc : cur.length > 0
  · simp only [if_pos hc]
    by_cases hov : total + (d.length : Int) + (cfg.separator.length : Int) >
        (cfg.chunk_size : Int)
    · rw [if_pos hov]
      exact (popLoop_suffix cfg (d.length : Int) cur total).sublist
    · rw [if_neg hov]
  · simp only [if_neg hc]
    rw [ite_self]

theorem mergeStep_total (cfg : ChunkerConfig) (d : Chars) (acc cur : List Chars)
    (total : Int) (ht : total = ((joinSep cfg.separator cur).length : Int)) :
    (mergeStep cfg d acc cur total).2.2 =
      ((joinSep cfg.separator (mergeStep cfg d acc cur total).2.1).length : Int) := by
  unfold mergeStep
  by_cases hc : cur.length > 0
  · simp only [if_pos hc]
    by_cases hov : total + (d.length : Int) + (cfg.separator.length : Int) >
        (cfg.chunk_size : Int)
    · rw [if_pos hov]
      exact popLoop_total cfg (d.length : Int) cur total ht
    · rw [if_neg hov]
      exact ht
  · simp only [if_neg hc]
    rw [ite_self]
    exact ht

theorem total_after_append (cfg : ChunkerConfig) (l : List Chars) (d : Chars) :
    ((joinSep cfg.separator l).length : Int) + (d.length : Int) +
        (if (l ++ [d]).length > 1 then (cfg.separator.length : Int) else 0) =
      ((joinSep cfg.separator (l ++ [d])).length : Int) := by
  rw [joinLen_append_singleton]
  by_cases hl : l = []
  · subst hl
    simp [joinSep]
  · rw [if_neg hl]
    rw [if_pos (by
      simp only [List.length_append, List.length_singleton]
      cases l with
      | nil => exact absurd rfl hl
      | cons a as => simp)]
    push_cast
    omega

theorem mergeStep_size (cfg : ChunkerConfig) (d : Chars) (acc cur : List Chars)
    (total : Int) (ht : total = ((joinSep cfg.separator cur).length : Int))
    (hcne : ∀ p ∈ cur, p ≠ [])
    (hcle : (joinSep cfg.separator cur).length ≤ cfg.chunk_size)
    (hd : d.length ≤ cfg.chunk_size) :
    (joinSep cfg.separator ((mergeStep cfg d acc cur total).2.1 ++ [d])).length ≤
      cfg.chunk_size := by
  unfold mergeStep
  by_cases hc : cur.length > 0
  · simp only [if_pos hc]
    by_cases hov : total + (d.length : Int) + (cfg.separator.length : Int) >
        (cfg.chunk_size : Int)
    · rw [if_pos hov]
      show (joinSep cfg.separator
          ((popLoop cfg (d.length : Int) cur total).1 ++ [d])).length ≤ cfg.chunk_size
      by_cases hpnil : (popLoop cfg (d.length : Int) cur total).1 = []
      · rw [hpnil]
        simpa [joinSep] using hd
      · have hplen : (popLoop cfg (d.length : Int) cur total).1.length > 0 := by
          cases hcl : (popLoop cfg (d.length : Int) cur total).1 with
          | nil => exact absurd hcl hpnil
          | cons a as => simp [hcl]
        have hptot := popLoop_total cfg (d.length : Int) cur total ht
        have hmem : ∀ p ∈ (popLoop cfg (d.length : Int) cur total).1, p ≠ [] :=
          fun p hp =>
            hcne p ((popLoop_suffix cfg (d.length : Int) cur total).sublist.subset hp)
        have hpos : 1 ≤ (joinSep cfg.separator
            (popLoop cfg (d.length : Int) cur total).1).length :=
          joinLen_pos cfg.separator _ hpnil hmem
        rcases popLoop_exit cfg (d.length : Int) cur total with hnil | hexit
        · exact absurd hnil hpnil
        · push_neg at hexit
          obtain ⟨hov2, hrest⟩ := hexit
          by_cases hgt : (popLoop cfg (d.length : Int) cur total).2 + (d.length : Int) +
              (if (popLoop cfg (d.length : Int) cur total).1.length > 0 then
                (cfg.separator.length : Int) else 0) > (cfg.chunk_size : Int)
          · exfalso
            have h0 := hrest hgt
            rw [hptot] at h0
            omega
          · push_neg at hgt
            rw [if_pos hplen, hptot] at hgt
            rw [joinLen_append_singleton, if_neg hpnil]
            omega
    · rw [if_neg hov]
      show (joinSep cfg.separator (cur ++ [d])).length ≤ cfg.chunk_size
      rw [joinLen_append_singleton]
      have hl : cur ≠ [] := by
        cases cur with
        | nil => simp at hc
        | cons a as => simp
      rw [if_neg hl]
      push_neg at hov
      rw [ht] at hov
      omega
  · simp only [if_neg hc]
    rw [ite_self]
    show (joinSep cfg.separator (cur ++ [d])).length ≤ cfg.chunk_size
    have hcur_nil : cur = [] := by
      cases cur with
      | nil => rfl
      | cons a as => simp at hc
    subst hcur_nil
    simpa [joinSep] using hd

theorem mergeGo_le (cfg : ChunkerConfig) :
    ∀ (splits acc cur : List Chars) (total : Int) (U : List Chars),
      cur.Sublist U →
      (∀ doc ∈ acc, doc.length ≤ (joinSep cfg.separator U).length) →
      ∀ doc ∈ mergeFinish cfg (mergeGo cfg splits acc cur total),
        doc.length ≤ (joinSep cfg.separator (U ++ splits)).length := by
  intro splits
  induction splits with
  | nil =>
    intro acc cur total U hcur hacc doc hdoc
    rw [List.append_nil]
    rcases appendDoc_mem cfg acc cur doc hdoc with h | h
    · exact hacc doc h
    · exact h.trans (joinLen_le_of_sublist cfg.separator hcur)
  | cons d ds ih =>
    intro acc cur total U hcur hacc doc hdoc
    have hdoc2 : doc ∈ mergeFinish cfg
        (mergeGo cfg ds (mergeStep cfg d acc cur total).1
          ((mergeStep cfg d acc cur total).2.1 ++ [d])
          ((mergeStep cfg d acc cur total).2.2 + (d.length : Int) +
            (if ((mergeStep cfg d acc cur total).2.1 ++ [d]).length > 1 then
              (cfg.separator.length : Int) else 0))) := hdoc
    have hsub : ((mergeStep cfg d acc cur total).2.1 ++ [d]).Sublist (U ++ [d]) :=
      ((mergeStep_cur cfg d acc cur total).trans hcur).append (List.Sublist.refl [d])
    have hUle : (joinSep cfg.separator U).length ≤
        (joinSep cfg.separator (U ++ [d])).length :=
      joinLen_le_of_sublist cfg.separator (List.sublist_append_left U [d])
    have hacc' : ∀ doc2 ∈ (mergeStep cfg d acc cur total).1,
        doc2.length ≤ (joinSep cfg.separator (U ++ [d])).length := by
      intro doc2 hd2
      rcases mergeStep_acc cfg d acc cur total doc2 hd2 with h | h
      · exact (hacc doc2 h).trans hUle
      · exact (h.trans (joinLen_le_of_sublist cfg.separator hcur)).trans hUle
    have hres := ih (mergeStep cfg d acc cur total).1
      ((mergeStep cfg d acc cur total).2.1 ++ [d]) _ (U ++ [d]) hsub hacc' doc hdoc2
    simpa [List.append_assoc] using hres

theorem mergeGo_size (cfg : ChunkerConfig) :
    ∀ (splits acc cur : List Chars),
      (∀ p ∈ splits, p.length ≤ cfg.chunk_size) →
      (∀ p ∈ splits, p ≠ []) →
      (∀ p ∈ cur, p ≠ []) →
      (joinSep cfg.separator cur).length ≤ cfg.chunk_size →
      (∀ doc ∈ acc, doc.length ≤ cfg.chunk_size) →
      ∀ doc ∈ mergeFinish cfg
          (mergeGo cfg splits acc cur ((joinSep cfg.separator cur).length : Int)),
        doc.length ≤ cfg.chunk_size := by
  intro splits
  induction splits with
  | nil =>
    intro acc cur _ _ _ hcle hacc doc hdoc
    rcases appendDoc_mem cfg acc cur doc hdoc with h | h
    · exact hacc doc h
    · exact h.trans hcle
  | cons d ds ih =>
    intro acc cur hsize hne hcne hcle hacc doc hdoc
    have htot := mergeStep_total cfg d acc cur
      ((joinSep cfg.separator cur).length : Int) rfl
    have hcur_sub := mergeStep_cur cfg d acc cur
      ((joinSep cfg.separator cur).length : Int)
    have hdoc2 : doc ∈ mergeFinish cfg
        (mergeGo cfg ds
          (mergeStep cfg d acc cur ((joinSep cfg.separator cur).length : Int)).1
          ((mergeStep cfg d acc cur
              ((joinSep cfg.separator cur).length : Int)).2.1 ++ [d])
          ((joinSep cfg.separator
            ((mergeStep cfg d acc cur
                ((joinSep cfg.separator cur).length : Int)).2.1 ++ [d])).length : Int)) := by
      have heq :
          (mergeStep cfg d acc cur ((joinSep cfg.separator cur).length : Int)).2.2 +
              (d.length : Int) +
              (if ((mergeStep cfg d acc cur
                    ((joinSep cfg.separator cur).length : Int)).2.1 ++ [d]).length > 1 then
                (cfg.separator.length : Int) else 0) =
            ((joinSep cfg.separator
              ((mergeStep cfg d acc cur
                  ((joinSep cfg.separator cur).length : Int)).2.1 ++ [d])).length : Int) := by
        rw [htot]
        exact total_after_append cfg _ d
      rw [← heq]
      exact hdoc
    refine ih _ _
      (fun p hp => hsize p (List.mem_cons_of_mem d hp))
      (fun p hp => hne p (List.mem_cons_of_mem d hp))
      ?_ ?_ ?_ doc hdoc2
    · intro p hp
      rcases List.mem_append.mp hp with h | h
      · exact hcne p (hcur_sub.subset h)
      · rw [List.mem_singleton.mp h]
        exact hne d (by simp)
    · exact mergeStep_size cfg d acc cur _ rfl hcne hcle (hsize d (by simp))
    · intro doc2 hd2
      rcases mergeStep_acc cfg d acc cur _ doc2 hd2 with h | h
      · exact hacc doc2 h
      · exact h.trans hcle

theorem splitter_chunk_le_text (cfg : ChunkerConfig) (text : Chars) :
    ∀ c ∈ splitterSplitText cfg text, c.length ≤ text.length := by
  intro c hc
  have h := mergeGo_le cfg
    ((splitSeparated cfg.separator text).filter (fun s => !s.isEmpty))
    [] [] 0 [] (List.nil_sublist []) (by simp) c hc
  rw [List.nil_append] at h
  exact h.trans (joinLen_splits_le cfg text)

theorem filter_flatMap_comm {α β : Type} (l : List α) (f : α → List β) (p : β → Bool) :
    (l.flatMap f).filter p = l.flatMap (fun a => (f a).filter p) := by
  induction l with
  | nil => rfl
  | cons x xs ih => simp [List.flatMap_cons, List.filter_append, ih]

/-! ## Claim C4 -/

/-- C4: every chunk split_text returns has text of at least min_chunk_size
characters; shorter chunks are dropped by the final filter with no error
possible (the embedding is a total function and split_text is exactly the
per-document chunk lists concatenated and filtered); and a document whose
entire cleaned text is shorter than min_chunk_size contributes zero chunks,
because no chunk of a document is longer than the document's text. -/
theorem split_min_chunk_size_policy (cfg : ChunkerConfig) (inputs : List Data) :
    (∀ c ∈ split_text cfg inputs, cfg.min_chunk_size ≤ c.text.length) ∧
    split_text cfg inputs = inputs.flatMap (fun d => docChunks cfg d) ∧
    (∀ d : Data, d.text.length < cfg.min_chunk_size → docChunks cfg d = []) := by
  refine ⟨?_, ?_, ?_⟩
  · intro c hc
    have h := (List.mem_filter.mp hc).2
    simpa using h
  · unfold split_text splitDocuments docChunks
    exact filter_flatMap_comm inputs _ _
  · intro d hd
    unfold docChunks
    rw [List.filter_eq_nil_iff]
    intro c hc
    obtain ⟨t, ht_mem, hform⟩ := List.mem_map.mp hc
    have hle : t.length ≤ d.text.length := splitter_chunk_le_text cfg d.text t ht_mem
    rw [← hform]
    simp only [decide_eq_true_eq, not_le]
    omega

/-! ## Claim C3 -/

/-- C3 counterexample: under a configuration with chunk_size 5 a document
whose text has no separator yields the single chunk abcdefgh of length 8,
which exceeds chunk_size (the langchain splitter keeps an unsplittable piece
whole and only logs a warning); and under a configuration with
chunk_overlap 3 the document aaaa bbbb cccc splits into the consecutive
chunks aaaa bbbb and cccc, which share no overlapping characters at all, so
consecutive chunks do not share exactly chunk_overlap characters. -/
theorem splitter_size_and_overlap_cex :
    (split_text cexCfgSmall [cexDocLong]).map (fun c => c.text) =
      [("abcdefgh").toList] ∧
    cexCfgSmall.chunk_size < (("abcdefgh").toList).length ∧
    (split_text cexCfgOverlap [cexDocWords]).map (fun c => c.text) =
      [("aaaa bbbb").toList, ("cccc").toList] ∧
    maxOverlap (("aaaa bbbb").toList) (("cccc").toList) ≠ cexCfgOverlap.chunk_overlap := by
  refine ⟨by decide, by decide, by decide, by decide⟩

/-- C3 amended: whenever every separator-delimited segment of every input
document's cleaned text is at most chunk_size characters long, every chunk
split_text returns has text of at most chunk_size characters. (Without that
proviso an unsplittable over-long segment is emitted whole as an oversized
chunk, and consecutive chunks share at most — not exactly — chunk_overlap
characters of overlap, as the counterexample shows.) -/
theorem split_chunks_le_chunk_size (cfg : ChunkerConfig) (inputs : List Data)
    (h : ∀ d ∈ inputs, ∀ p ∈ splitSeparated cfg.separator d.text,
      p.length ≤ cfg.chunk_size) :
    ∀ c ∈ split_text cfg inputs, c.text.length ≤ cfg.chunk_size := by
  intro c hc
  have hc2 := (List.mem_filter.mp hc).1
  unfold splitDocuments at hc2
  obtain ⟨d, hd_mem, hc3⟩ := List.mem_flatMap.mp hc2
  obtain ⟨t, ht_mem, hform⟩ := List.mem_map.mp hc3
  rw [← hform]
  show t.length ≤ cfg.chunk_size
  refine mergeGo_size cfg
    ((splitSeparated cfg.separator d.text).filter (fun s => !s.isEmpty)) [] []
    (fun p hp => h d hd_mem p (List.mem_of_mem_filter hp))
    (fun p hp => by simpa using (List.mem_filter.mp hp).2)
    (by simp) (by simp [joinSep]) (by simp) t ht_mem

/-- Witness for the amended C3 theorem at a concrete input: with chunk_size
10 and every space-delimited word of length at most 10, the chunk
aaaa bbbb produced by the run fits within chunk_size. -/
theorem split_chunks_le_chunk_size_witness :
    (("aaaa bbbb").toList).length ≤ 10 :=
  split_chunks_le_chunk_size cexCfgOverlap [cexDocWords] (by decide)
    (Data.mk (("aaaa bbbb").toList) cexDocWords.data) (by decide)

/-- Witness for the C4 theorem at a concrete input: under the default
configuration (min_chunk_size 100) the five-character document short
contributes zero chunks. -/
theorem split_min_chunk_size_policy_witness :
    docChunks {} (Data.mk (("short").toList) []) = [] :=
  (split_min_chunk_size_policy {} []).2.2 (Data.mk (("short").toList) []) (by decide)

/-- Witness for the C5 theorem at a concrete input: with no chunks the
average is 0, not a division error. -/
theorem get_status_safe_witness :
    (get_status (ProcessorState.mk [] [])).average_chunk_size = 0 :=
  (get_status_safe (ProcessorState.mk [] [])).1 rfl

/-- Witness for the C6 theorem at a concrete input: a tenant with no staged
files gets the empty partition without error. -/
theorem batch_convert_partitions_witness :
    batch_convert_pdfs (fun _ => true) [] =
      { successful := [], failed := [], total := 0 } :=
  (batch_convert_partitions (fun _ => true) []).2.2.2.2

/-- Witness for the C9 theorem at concrete inputs: after a successful call
the second call is a no-op that invokes no creation action even when the
creation oracle would fail, and an already-exists failure on a fresh state
is treated as success. -/
theorem ensure_index_ready_idempotent_witness :
    ensure_index_exists (.failure ("boom")) vsReadyCreated = .ok (vsReadyCreated, false) ∧
    ensure_index_exists (.failure ("Index already exists")) vsReady =
      .ok ({ vsReady with index_created := true }, true) :=
  ⟨(ensure_index_ready_idempotent .success (.failure ("boom"))
      vsReady vsReadyCreated true).1 rfl,
   (ensure_index_ready_idempotent .success .success vsReady vsReady true).2
      ("Index already exists") rfl (by decide)⟩

/-- Witness for the C10 theorem at a concrete input. -/
theorem pipeline_search_always_raises_witness :
    pipeline_search_documents ("q") ("acme") none 4 =
      .error (.attributeError ("create_metadata_filter")) :=
  pipeline_search_always_raises ("q") ("acme") none 4

end ProcureLens
